import Mathlib

/-!
Verification of the SQLite-backed hierarchical configuration store in
`src/sql_database.py` (classes `Database`, `App`, `TableFrame`).

The embedding models:
* the JSON serialization used for list-of-string fields
  (`json.dumps` on a `list[str]` with default arguments, and the subset of
  `json.loads` that such output exercises);
* the SQLite schema created by `Database._create_tables` (three tables,
  UNIQUE / NOT NULL / CHECK / FOREIGN KEY ... ON DELETE CASCADE clauses,
  AUTOINCREMENT primary keys, with `PRAGMA foreign_keys = ON` as set in
  `Database.__init__`);
* the CRUD methods of `Database` as state transformers over an explicit
  store state, returning `Except` to model the `sqlite3.IntegrityError`
  exceptions SQLite raises on constraint violations;
* the UI-side decoding performed by `TableFrame.refresh`.
-/

namespace SQLiteApp

/-! ## JSON encoding of list-of-string fields (model of `json.dumps`)

`Database.create_channel` etc. store `post_times` / `forbidden_words` as
`json.dumps(value)` where `value` is a Python `list[str]`.  With default
arguments `json.dumps` uses `ensure_ascii=True` and the separator `", "`;
a character is emitted verbatim iff it is printable ASCII (U+0020..U+007E)
and not `"` or `\`; `\b \t \n \f \r \" \\` use two-character escapes; every
other character becomes `\uXXXX` (lowercase hex), with characters above
U+FFFF encoded as a UTF-16 surrogate pair. -/

/-- One lowercase hexadecimal digit, as emitted by Python's `"%04x"`. -/
def hexDig (d : Nat) : Char :=
  if d < 10 then Char.ofNat (48 + d) else Char.ofNat (87 + d)

/-- The four lowercase hex digits of `n < 0x10000`, most significant first. -/
def toHex4 (n : Nat) : List Char :=
  [hexDig (n / 4096 % 16), hexDig (n / 256 % 16), hexDig (n / 16 % 16), hexDig (n % 16)]

/-- JSON escaping of a single character, exactly as `json.dumps` with
`ensure_ascii=True` does (`ESCAPE_ASCII` in Python's `json.encoder`). -/
def escapeChar (c : Char) : List Char :=
  if c = '"' then ['\\', '"']
  else if c = '\\' then ['\\', '\\']
  else if c.toNat = 8 then ['\\', 'b']
  else if c.toNat = 9 then ['\\', 't']
  else if c.toNat = 10 then ['\\', 'n']
  else if c.toNat = 12 then ['\\', 'f']
  else if c.toNat = 13 then ['\\', 'r']
  else if 0x20 ≤ c.toNat ∧ c.toNat ≤ 0x7e then [c]
  else if c.toNat < 0x10000 then '\\' :: 'u' :: toHex4 c.toNat
  else ('\\' :: 'u' :: toHex4 (0xd800 + (c.toNat - 0x10000) / 0x400)) ++
       ('\\' :: 'u' :: toHex4 (0xdc00 + (c.toNat - 0x10000) % 0x400))

/-- JSON string literal for `s` (content escaped, wrapped in quotes). -/
def encodeStringChars (s : List Char) : List Char :=
  '"' :: (s.flatMap escapeChar) ++ ['"']

/-- Members after the first one, each preceded by `", "`
(Python's default item separator). -/
def encodeMembersTail : List (List Char) → List Char
  | [] => []
  | s :: rest => ',' :: ' ' :: (encodeStringChars s ++ encodeMembersTail rest)

/-- The members of a JSON array of strings, separated by `", "`. -/
def encodeMembers : List (List Char) → List Char
  | [] => []
  | s :: rest => encodeStringChars s ++ encodeMembersTail rest

/-- Model of `json.dumps(L)` for a Python `list[str]` `L` with default
arguments: the serialized-array text stored in the `post_times` and
`forbidden_words` columns.  The empty list encodes to the explicit
marker `"[]"`. -/
def json_dumps_strlist (L : List String) : String :=
  String.mk ('[' :: encodeMembers (L.map String.data) ++ [']'])

/-! ## JSON decoding (model of `json.loads` on array-of-string documents)

`TableFrame.refresh` reads the stored text back with `json.loads`.  The
only documents this program ever stores are arrays of strings, so the
model implements exactly that fragment of the JSON grammar; it is `none`
on anything outside it. -/

/-- Numeric value of one hex digit as accepted by `json.loads`
(both letter cases). -/
def hexVal (c : Char) : Option Nat :=
  if 48 ≤ c.toNat ∧ c.toNat ≤ 57 then some (c.toNat - 48)
  else if 97 ≤ c.toNat ∧ c.toNat ≤ 102 then some (c.toNat - 87)
  else if 65 ≤ c.toNat ∧ c.toNat ≤ 70 then some (c.toNat - 55)
  else none

/-- Value of a four-hex-digit group `\uXXXX`. -/
def hex4 (h1 h2 h3 h4 : Char) : Option Nat :=
  match hexVal h1, hexVal h2, hexVal h3, hexVal h4 with
  | some a, some b, some c, some d => some (a * 4096 + b * 256 + c * 16 + d)
  | _, _, _, _ => none

/-- After a high-surrogate `\uXXXX` group, `json.decoder` looks for an
immediately following low-surrogate group `\uDC00`-`\uDFFF`: parse it,
returning its value and the remaining input. -/
def parseLowSurrogate : List Char → Option (Nat × List Char)
  | b1 :: u1 :: g1 :: g2 :: g3 :: g4 :: r =>
    if b1 = '\\' ∧ u1 = 'u' then
      match hex4 g1 g2 g3 g4 with
      | none => none
      | some w => if 0xdc00 ≤ w ∧ w < 0xe000 then some (w, r) else none
    else none
  | _ => none

/-- Decode one escape sequence (the leading `\` already consumed),
returning the decoded character and the remaining input: the named
escapes of `json.decoder`'s `BACKSLASH` table plus `\uXXXX`, with an
immediately following low surrogate recombined into one code point. -/
def decodeEscape : List Char → Option (Char × List Char)
  | [] => none
  | e :: r =>
    if e = '"' then some ('"', r)
    else if e = '\\' then some ('\\', r)
    else if e = '/' then some ('/', r)
    else if e = 'b' then some (Char.ofNat 8, r)
    else if e = 'f' then some (Char.ofNat 12, r)
    else if e = 'n' then some (Char.ofNat 10, r)
    else if e = 'r' then some (Char.ofNat 13, r)
    else if e = 't' then some (Char.ofNat 9, r)
    else if e = 'u' then
      match r with
      | h1 :: h2 :: h3 :: h4 :: r2 =>
        match hex4 h1 h2 h3 h4 with
        | none => none
        | some v =>
          if 0xd800 ≤ v ∧ v < 0xdc00 then
            match parseLowSurrogate r2 with
            | some (w, r3) =>
              some (Char.ofNat (0x10000 + (v - 0xd800) * 0x400 + (w - 0xdc00)), r3)
            | none => none
          else if 0xdc00 ≤ v ∧ v < 0xe000 then none
          else some (Char.ofNat v, r2)
      | _ => none
    else none

/-- Parse the body of a JSON string literal (opening quote already
consumed): returns the decoded characters and the input remaining after
the closing quote.  A raw control character is rejected (`strict=True`
in `json.decoder`).  The `fuel` argument bounds the recursion depth;
every step consumes at least one input character, so
`fuel = length + 1` never runs out. -/
def parseStringBody : Nat → List Char → Option (List Char × List Char)
  | 0, _ => none
  | Nat.succ fuel, l =>
    match l with
    | [] => none
    | c :: r =>
    if c = '"' then some ([], r)
    else if c = '\\' then
      match decodeEscape r with
      | some (d, r2) => (parseStringBody fuel r2).map (fun p => (d :: p.1, p.2))
      | none => none
    else if c.toNat < 0x20 then none
    else (parseStringBody fuel r).map (fun p => (c :: p.1, p.2))

/-- JSON insignificant whitespace. -/
def isJsonWs (c : Char) : Bool :=
  c = ' ' || c = '\t' || c = '\n' || c.toNat = 13

/-- Skip insignificant whitespace. -/
def skipWs (l : List Char) : List Char := l.dropWhile isJsonWs

/-- Parse the members of a non-empty JSON array of strings, positioned at
the first character of a string literal; returns the decoded strings and
the input remaining after the closing `]`.  `fuel` bounds the recursion
depth; each member consumes at least two characters, so
`fuel = length + 1` never runs out. -/
def parseMembers : Nat → List Char → Option (List String × List Char)
  | 0, _ => none
  | Nat.succ fuel, l =>
    match l with
    | '"' :: r =>
      match parseStringBody (r.length + 1) r with
      | none => none
      | some (cs, r2) =>
        match skipWs r2 with
        | ',' :: r3 =>
          (parseMembers fuel (skipWs r3)).map (fun p => (String.mk cs :: p.1, p.2))
        | ']' :: r3 => some ([String.mk cs], r3)
        | _ => none
    | _ => none

/-- Model of `json.loads(s)` restricted to the documents this program
stores: an array of strings (with arbitrary surrounding JSON whitespace).
Anything else yields `none`. -/
def json_loads_strlist (s : String) : Option (List String) :=
  match skipWs s.data with
  | '[' :: r =>
    match skipWs r with
    | [] => none
    | d :: r2 =>
      if d = ']' then (if skipWs r2 = [] then some [] else none)
      else
        match parseMembers ((d :: r2).length + 1) (d :: r2) with
        | some (L, rest) => if skipWs rest = [] then some L else none
        | none => none
  | _ => none

/-! ## Round-trip of the string-list encoding -/

theorem char_valid_cases (c : Char) :
    c.toNat < 0xd800 ∨ (0xdfff < c.toNat ∧ c.toNat < 0x110000) :=
  c.valid

theorem char_eq_ofNat (c : Char) (n : Nat) (h : c.toNat = n) : Char.ofNat n = c := by
  subst h; exact Char.ofNat_toNat c

theorem toNat_ofNat_valid (n : Nat) (h : n.isValidChar) : (Char.ofNat n).toNat = n := by
  unfold Char.ofNat
  rw [dif_pos h]
  rfl

theorem hexVal_hexDig (d : Nat) (h : d < 16) : hexVal (hexDig d) = some d := by
  unfold hexDig
  by_cases h10 : d < 10
  · rw [if_pos h10]
    unfold hexVal
    rw [toNat_ofNat_valid (48 + d) (Or.inl (by omega))]
    rw [if_pos (by omega)]
    congr 1
    omega
  · rw [if_neg h10]
    unfold hexVal
    rw [toNat_ofNat_valid (87 + d) (Or.inl (by omega))]
    rw [if_neg (by omega), if_pos (by omega)]
    congr 1
    omega

theorem hex4_toHex4 (n : Nat) (h : n < 0x10000) :
    hex4 (hexDig (n / 4096 % 16)) (hexDig (n / 256 % 16)) (hexDig (n / 16 % 16))
      (hexDig (n % 16)) = some n := by
  unfold hex4
  rw [hexVal_hexDig _ (by omega), hexVal_hexDig _ (by omega), hexVal_hexDig _ (by omega),
    hexVal_hexDig _ (by omega)]
  simp only [Option.some.injEq]
  omega

theorem parseLowSurrogate_toHex4 (w : Nat) (hlo : 0xdc00 ≤ w ∧ w < 0xe000) (rest : List Char) :
    parseLowSurrogate ('\\' :: 'u' :: hexDig (w / 4096 % 16) :: hexDig (w / 256 % 16) ::
      hexDig (w / 16 % 16) :: hexDig (w % 16) :: rest) = some (w, rest) := by
  simp only [parseLowSurrogate, Char.reduceEq, and_self, if_true]
  rw [hex4_toHex4 w (by omega)]
  simp only []
  rw [if_pos hlo]

theorem parseStringBody_quote (fuel : Nat) (r : List Char) :
    parseStringBody (fuel + 1) ('"' :: r) = some ([], r) := by
  rw [parseStringBody]
  rw [if_pos rfl]

theorem parseStringBody_backslash (fuel : Nat) (r : List Char) :
    parseStringBody (fuel + 1) ('\\' :: r) =
      match decodeEscape r with
      | some (d, r2) => (parseStringBody fuel r2).map (fun p => (d :: p.1, p.2))
      | none => none := by
  rw [parseStringBody]
  rw [if_neg (by decide), if_pos rfl]

theorem parseStringBody_plain (fuel : Nat) (c : Char) (r : List Char)
    (h1 : ¬ c = '"') (h2 : ¬ c = '\\') (h3 : ¬ c.toNat < 0x20) :
    parseStringBody (fuel + 1) (c :: r) =
      (parseStringBody fuel r).map (fun p => (c :: p.1, p.2)) := by
  rw [parseStringBody]
  rw [if_neg h1, if_neg h2, if_neg h3]

/-- Decoding the escape of a two-character named escape. -/
theorem decodeEscape_named (c e : Char) (rest : List Char)
    (h : decodeEscape (e :: rest) = some (c, rest)) (fuel : Nat) :
    parseStringBody (fuel + 1) ('\\' :: e :: rest) =
      (parseStringBody fuel rest).map (fun p => (c :: p.1, p.2)) := by
  rw [parseStringBody_backslash, h]

/-- Decoding a `\uXXXX` escape of a basic-plane, non-surrogate value. -/
theorem decodeEscape_hex (v : Nat) (rest : List Char) (hlt : v < 0x10000)
    (hns : ¬ (0xd800 ≤ v ∧ v < 0xe000)) :
    decodeEscape ('u' :: hexDig (v / 4096 % 16) :: hexDig (v / 256 % 16) ::
      hexDig (v / 16 % 16) :: hexDig (v % 16) :: rest) = some (Char.ofNat v, rest) := by
  simp only [decodeEscape, Char.reduceEq, reduceIte]
  rw [hex4_toHex4 v hlt]
  simp only []
  rw [if_neg (by omega : ¬ (0xd800 ≤ v ∧ v < 0xdc00)),
    if_neg (by omega : ¬ (0xdc00 ≤ v ∧ v < 0xe000))]

/-- Decoding a surrogate pair of `\uXXXX` escapes. -/
theorem decodeEscape_surrogatePair (v w : Nat) (rest : List Char)
    (hhi : 0xd800 ≤ v ∧ v < 0xdc00) (hlo : 0xdc00 ≤ w ∧ w < 0xe000) :
    decodeEscape ('u' :: hexDig (v / 4096 % 16) :: hexDig (v / 256 % 16) ::
      hexDig (v / 16 % 16) :: hexDig (v % 16) :: '\\' :: 'u' :: hexDig (w / 4096 % 16) ::
      hexDig (w / 256 % 16) :: hexDig (w / 16 % 16) :: hexDig (w % 16) :: rest) =
      some (Char.ofNat (0x10000 + (v - 0xd800) * 0x400 + (w - 0xdc00)), rest) := by
  simp only [decodeEscape, Char.reduceEq, reduceIte]
  rw [hex4_toHex4 v (by omega)]
  simp only []
  rw [if_pos hhi, parseLowSurrogate_toHex4 w hlo rest]

/-- Parsing an escaped character recovers it: the core of the round-trip. -/
theorem parseStringBody_escapeChar (c : Char) (rest : List Char) (fuel : Nat) :
    parseStringBody (fuel + 1) (escapeChar c ++ rest) =
      (parseStringBody fuel rest).map (fun p => (c :: p.1, p.2)) := by
  have hv := char_valid_cases c
  unfold escapeChar
  split_ifs with h1 h2 h3 h4 h5 h6 h7 h8 h9
  · subst h1
    exact decodeEscape_named _ _ rest (by simp [decodeEscape]) fuel
  · subst h2
    exact decodeEscape_named _ _ rest (by simp [decodeEscape]) fuel
  · obtain rfl : c = Char.ofNat 8 := (char_eq_ofNat c 8 h3).symm
    exact decodeEscape_named _ _ rest (by simp [decodeEscape]) fuel
  · obtain rfl : c = Char.ofNat 9 := (char_eq_ofNat c 9 h4).symm
    exact decodeEscape_named _ _ rest (by simp [decodeEscape]) fuel
  · obtain rfl : c = Char.ofNat 10 := (char_eq_ofNat c 10 h5).symm
    exact decodeEscape_named _ _ rest (by simp [decodeEscape]) fuel
  · obtain rfl : c = Char.ofNat 12 := (char_eq_ofNat c 12 h6).symm
    exact decodeEscape_named _ _ rest (by simp [decodeEscape]) fuel
  · obtain rfl : c = Char.ofNat 13 := (char_eq_ofNat c 13 h7).symm
    exact decodeEscape_named _ _ rest (by simp [decodeEscape]) fuel
  · exact parseStringBody_plain fuel c rest h1 h2 (by omega)
  · rw [List.cons_append, List.cons_append]
    rw [toHex4]
    simp only [List.cons_append, List.nil_append]
    rw [parseStringBody_backslash,
      decodeEscape_hex c.toNat rest h9 (by omega), char_eq_ofNat c c.toNat rfl]
  · have hcv : c.toNat < 0x110000 := by omega
    simp only [toHex4, List.cons_append, List.append_assoc, List.nil_append]
    rw [parseStringBody_backslash,
      decodeEscape_surrogatePair (0xd800 + (c.toNat - 0x10000) / 0x400)
        (0xdc00 + (c.toNat - 0x10000) % 0x400) rest (by omega) (by omega)]
    have harg : 0x10000 + (0xd800 + (c.toNat - 0x10000) / 0x400 - 0xd800) * 0x400 +
        (0xdc00 + (c.toNat - 0x10000) % 0x400 - 0xdc00) = c.toNat := by omega
    rw [harg, char_eq_ofNat c c.toNat rfl]

/-- A fully escaped string body followed by the closing quote parses back
to the original characters. -/
theorem parseStringBody_encoded (s : List Char) :
    ∀ (rest : List Char) (fuel : Nat), s.length ≤ fuel →
      parseStringBody (fuel + 1) (s.flatMap escapeChar ++ '"' :: rest) = some (s, rest) := by
  induction s with
  | nil =>
    intro rest fuel _
    simp [parseStringBody]
  | cons c s ih =>
    intro rest fuel hf
    obtain ⟨f, rfl⟩ : ∃ f, fuel = f + 1 := ⟨fuel - 1, by simp at hf; omega⟩
    rw [List.flatMap_cons, List.append_assoc, parseStringBody_escapeChar]
    rw [ih rest f (by simp at hf; omega)]
    rfl

theorem one_le_length_escapeChar (c : Char) : 1 ≤ (escapeChar c).length := by
  unfold escapeChar
  split_ifs <;> simp [toHex4]

theorem length_le_flatMap_escapeChar (s : List Char) :
    s.length ≤ (s.flatMap escapeChar).length := by
  induction s with
  | nil => simp
  | cons c s ih =>
    rw [List.flatMap_cons, List.length_append, List.length_cons]
    have := one_le_length_escapeChar c
    omega

theorem skipWs_not_ws (c : Char) (l : List Char) (h : isJsonWs c = false) :
    skipWs (c :: l) = c :: l := by
  simp [skipWs, List.dropWhile_cons, h]

theorem skipWs_space (l : List Char) : skipWs (' ' :: l) = skipWs l := by
  simp [skipWs, List.dropWhile_cons, isJsonWs]

theorem encodeMembers_cons_head (t : List Char) (M : List (List Char)) :
    ∃ tl, encodeMembers (t :: M) = '"' :: tl := by
  simp only [encodeMembers, encodeStringChars, List.cons_append]
  exact ⟨_, rfl⟩

theorem length_le_encodeMembers (M : List (List Char)) :
    M.length ≤ (encodeMembers M).length := by
  induction M with
  | nil => simp [encodeMembers]
  | cons s M ih =>
    cases M with
    | nil => simp [encodeMembers, encodeMembersTail, encodeStringChars]
    | cons t M2 =>
      simp only [encodeMembers, encodeMembersTail, encodeStringChars, List.length_append,
        List.length_cons] at ih ⊢
      omega

/-- The encoded members of a nonempty string array, followed by the
closing bracket, parse back to the original strings. -/
theorem parseMembers_encoded (M : List (List Char)) :
    ∀ (rest : List Char) (fuel : Nat), M ≠ [] → M.length ≤ fuel →
      parseMembers fuel (encodeMembers M ++ ']' :: rest) =
        some (M.map String.mk, rest) := by
  induction M with
  | nil => intro rest fuel h _; exact absurd rfl h
  | cons s M ih =>
    intro rest fuel _ hf
    obtain ⟨f, rfl⟩ : ∃ f, fuel = f + 1 := ⟨fuel - 1, by simp at hf; omega⟩
    match M with
    | [] =>
      have hshape : encodeMembers [s] ++ ']' :: rest
          = '"' :: (s.flatMap escapeChar ++ '"' :: ']' :: rest) := by
        simp only [encodeMembers, encodeMembersTail, encodeStringChars, List.append_nil,
          List.cons_append, List.append_assoc, List.singleton_append, List.nil_append]
      rw [hshape]
      rw [parseMembers]
      rw [parseStringBody_encoded s (']' :: rest) _
        (by
          have := length_le_flatMap_escapeChar s
          simp only [List.length_append, List.length_cons]
          omega)]
      simp only []
      rw [skipWs_not_ws ']' rest (by decide)]
      simp only [Char.reduceEq, reduceIte, List.map_cons, List.map_nil]
    | t :: M2 =>
      have hshape : encodeMembers (s :: t :: M2) ++ ']' :: rest
          = '"' :: (s.flatMap escapeChar ++ '"' :: ',' :: ' ' ::
              (encodeMembers (t :: M2) ++ ']' :: rest)) := by
        simp only [encodeMembers, encodeMembersTail, encodeStringChars, List.cons_append,
          List.append_assoc, List.singleton_append, List.nil_append]
      rw [hshape]
      rw [parseMembers]
      rw [parseStringBody_encoded s (',' :: ' ' :: (encodeMembers (t :: M2) ++ ']' :: rest)) _
        (by
          have := length_le_flatMap_escapeChar s
          simp only [List.length_append, List.length_cons]
          omega)]
      simp only []
      rw [skipWs_not_ws ',' _ (by decide)]
      simp only [Char.reduceEq, reduceIte]
      rw [skipWs_space]
      obtain ⟨tl, htl⟩ := encodeMembers_cons_head t M2
      rw [htl, List.cons_append, skipWs_not_ws '"' _ (by decide), ← List.cons_append, ← htl]
      rw [ih rest f (by simp) (by simp at hf ⊢; omega)]
      rfl

theorem string_mk_data (s : String) : String.mk s.data = s := rfl

theorem map_mk_map_data (L : List String) :
    ((L.map String.data).map String.mk) = L := by
  induction L with
  | nil => rfl
  | cons s L ih => simp [ih, string_mk_data]

/-- C8 core: the JSON encoding of any list of strings decodes back to it. -/
theorem json_roundtrip (L : List String) :
    json_loads_strlist (json_dumps_strlist L) = some L := by
  match L with
  | [] => rfl
  | s :: L2 =>
    unfold json_dumps_strlist json_loads_strlist
    have hd : (String.mk ('[' :: encodeMembers ((s :: L2).map String.data) ++ [']'])).data
        = '[' :: encodeMembers ((s :: L2).map String.data) ++ [']'] := rfl
    rw [hd, List.cons_append, skipWs_not_ws '[' _ (by decide)]
    simp only [Char.reduceEq, reduceIte]
    obtain ⟨tl, htl⟩ := encodeMembers_cons_head (s.data) (L2.map String.data)
    have hM : (s :: L2).map String.data = s.data :: L2.map String.data := rfl
    rw [hM, htl, List.cons_append, skipWs_not_ws '"' _ (by decide)]
    simp only [Char.reduceEq, reduceIte]
    rw [← List.cons_append, ← htl]
    have hne : (s.data :: L2.map String.data) ≠ [] := by simp
    have hparse := parseMembers_encoded (s.data :: L2.map String.data) []
      ((encodeMembers (s.data :: L2.map String.data) ++ [']']).length + 1) hne
      (by
        have hle := length_le_encodeMembers (s.data :: L2.map String.data)
        simp only [List.length_append, List.length_cons, List.length_nil] at hle ⊢
        omega)
    rw [hparse]
    simp only [skipWs, List.dropWhile_nil, reduceIte]
    rw [show ((s.data :: L2.map String.data).map String.mk)
        = ((s :: L2).map String.data).map String.mk from rfl]
    rw [map_mk_map_data]

/-! ## Schema created by `Database._create_tables`

A declarative transcription of the `CREATE TABLE IF NOT EXISTS`
statements executed in `_create_tables` (src/sql_database.py lines
19-43), together with the `PRAGMA foreign_keys = ON` issued in
`Database.__init__`. -/

structure TableSchema where
  name : String
  columns : List String
  pkColumn : String
  pkAutoincrement : Bool
  uniqueCols : List String
  notNullCols : List String
  foreignKey : Option (String × String × String × Bool)
  checkEnum : Option (String × List String)
deriving DecidableEq

/-- `channels(id INTEGER PRIMARY KEY AUTOINCREMENT, name TEXT UNIQUE NOT
NULL, url TEXT UNIQUE NOT NULL, post_times TEXT, forbidden_words TEXT)` -/
def channelsTable : TableSchema where
  name := "channels"
  columns := ["id", "name", "url", "post_times", "forbidden_words"]
  pkColumn := "id"
  pkAutoincrement := true
  uniqueCols := ["name", "url"]
  notNullCols := ["name", "url"]
  foreignKey := none
  checkEnum := none

/-- `sources(id INTEGER PRIMARY KEY AUTOINCREMENT, channel_id INTEGER NOT
NULL, source_url TEXT NOT NULL, parse_media INTEGER NOT NULL,
forbidden_words TEXT, FOREIGN KEY(channel_id) REFERENCES channels(id) ON
DELETE CASCADE)` -/
def sourcesTable : TableSchema where
  name := "sources"
  columns := ["id", "channel_id", "source_url", "parse_media", "forbidden_words"]
  pkColumn := "id"
  pkAutoincrement := true
  uniqueCols := []
  notNullCols := ["channel_id", "source_url", "parse_media"]
  foreignKey := some ("channel_id", "channels", "id", true)
  checkEnum := none

/-- `sites(id INTEGER PRIMARY KEY AUTOINCREMENT, channel_id INTEGER NOT
NULL, site_url TEXT NOT NULL, site_type TEXT CHECK(site_type IN
('AUTO','RENT','BUY','FREE')) NOT NULL, FOREIGN KEY(channel_id)
REFERENCES sources(id) ON DELETE CASCADE)` — note the foreign-key column
is spelled `channel_id` in the source even though it references
`sources(id)`. -/
def sitesTable : TableSchema where
  name := "sites"
  columns := ["id", "channel_id", "site_url", "site_type"]
  pkColumn := "id"
  pkAutoincrement := true
  uniqueCols := []
  notNullCols := ["channel_id", "site_url", "site_type"]
  foreignKey := some ("channel_id", "sources", "id", true)
  checkEnum := some ("site_type", ["AUTO", "RENT", "BUY", "FREE"])

/-- `PRAGMA foreign_keys = ON` (src/sql_database.py line 13): foreign-key
enforcement, and hence cascading deletion, is active for the connection. -/
def foreign_keys_pragma : Bool := true

/-! ## Store state

One record per table row, with structured fields in their *stored*
representation: `post_times` / `forbidden_words` hold the `json.dumps`
text, `parse_media` holds the integer `int(parse_media)`.  The `...Seq`
fields model the per-table `AUTOINCREMENT` sequence (largest identity
ever assigned). -/

structure ChannelRow where
  id : Nat
  name : String
  url : String
  post_times : String
  forbidden_words : String
deriving DecidableEq

structure SourceRow where
  id : Nat
  channel_id : Nat
  source_url : String
  parse_media : Nat
  forbidden_words : String
deriving DecidableEq

structure SiteRow where
  id : Nat
  channel_id : Nat
  site_url : String
  site_type : String
deriving DecidableEq

structure Database where
  channels : List ChannelRow
  sources : List SourceRow
  sites : List SiteRow
  channelSeq : Nat
  sourceSeq : Nat
  siteSeq : Nat
deriving DecidableEq

/-- The store right after `Database.__init__` on a fresh file. -/
def emptyDatabase : Database := ⟨[], [], [], 0, 0, 0⟩

/-- The `sqlite3.IntegrityError` variants SQLite raises on the
constraints declared by `_create_tables`; the spec's taxonomy maps
`UniqueConstraintViolation` / `ForeignKeyViolation` / `InvalidEnum` onto
these. -/
inductive SqlError
  | uniqueConstraintFailed (column : String)
  | foreignKeyConstraintFailed
  | checkConstraintFailed
deriving DecidableEq

/-! ## CRUD methods of `Database`

Each mutating method returns `Except SqlError`: `.error` models the
`sqlite3.IntegrityError` exception propagating out of `_execute` (the
statement fails before `commit`, so the store is unchanged).  `create_*`
additionally return the Python return value of the method, which is
always `none`: the source never returns `cur.lastrowid`. -/

def list_channels (db : Database) : List ChannelRow := db.channels

def create_channel (db : Database) (name url : String)
    (post_times forbidden_words : List String) : Except SqlError (Database × Option Nat) :=
  if db.channels.any (fun ch => ch.name == name) then
    .error (.uniqueConstraintFailed "channels.name")
  else if db.channels.any (fun ch => ch.url == url) then
    .error (.uniqueConstraintFailed "channels.url")
  else
    let row : ChannelRow :=
      { id := db.channelSeq + 1, name := name, url := url,
        post_times := json_dumps_strlist post_times,
        forbidden_words := json_dumps_strlist forbidden_words }
    .ok ({ db with channels := db.channels ++ [row], channelSeq := db.channelSeq + 1 }, none)

def update_channel (db : Database) (cid : Nat) (name url : String)
    (post_times forbidden_words : List String) : Except SqlError Database :=
  if db.channels.any (fun ch => ch.id == cid) then
    if db.channels.any (fun ch => ch.id != cid && ch.name == name) then
      .error (.uniqueConstraintFailed "channels.name")
    else if db.channels.any (fun ch => ch.id != cid && ch.url == url) then
      .error (.uniqueConstraintFailed "channels.url")
    else
      let upd : ChannelRow → ChannelRow := fun ch =>
        if ch.id == cid then
          { ch with
            name := name, url := url,
            post_times := json_dumps_strlist post_times,
            forbidden_words := json_dumps_strlist forbidden_words }
        else ch
      .ok { db with channels := db.channels.map upd }
  else .ok db

/-- The state after `DELETE FROM channels WHERE id=?` with
`PRAGMA foreign_keys = ON`: the cascade deletes the Sources whose
`channel_id` references the Channel, and transitively the Sites whose
(misleadingly named) `channel_id` references one of those Sources. -/
def delete_channel_db (db : Database) (cid : Nat) : Database :=
  let deletedChannels := db.channels.filter (fun ch => ch.id == cid)
  let deletedSources := db.sources.filter
    (fun s => deletedChannels.any (fun ch => ch.id == s.channel_id))
  { db with
    channels := db.channels.filter (fun ch => ch.id != cid),
    sources := db.sources.filter
      (fun s => !(deletedChannels.any (fun ch => ch.id == s.channel_id))),
    sites := db.sites.filter (fun t => !(deletedSources.any (fun s => s.id == t.channel_id))) }

def delete_channel (db : Database) (cid : Nat) : Except SqlError Database :=
  .ok (delete_channel_db db cid)

def list_sources (db : Database) : List SourceRow := db.sources

def create_source (db : Database) (channel_id : Nat) (url : String)
    (parse_media : Bool) (forbidden_words : List String) :
    Except SqlError (Database × Option Nat) :=
  if db.channels.any (fun ch => ch.id == channel_id) then
    let row : SourceRow :=
      { id := db.sourceSeq + 1, channel_id := channel_id, source_url := url,
        parse_media := if parse_media then 1 else 0,
        forbidden_words := json_dumps_strlist forbidden_words }
    .ok ({ db with sources := db.sources ++ [row], sourceSeq := db.sourceSeq + 1 }, none)
  else .error .foreignKeyConstraintFailed

def update_source (db : Database) (sid : Nat) (channel_id : Nat) (url : String)
    (parse_media : Bool) (forbidden_words : List String) : Except SqlError Database :=
  if db.sources.any (fun s => s.id == sid) then
    if db.channels.any (fun ch => ch.id == channel_id) then
      let upd : SourceRow → SourceRow := fun s =>
        if s.id == sid then
          { s with
            channel_id := channel_id, source_url := url,
            parse_media := if parse_media then 1 else 0,
            forbidden_words := json_dumps_strlist forbidden_words }
        else s
      .ok { db with sources := db.sources.map upd }
    else .error .foreignKeyConstraintFailed
  else .ok db

/-- `DELETE FROM sources WHERE id=?`: cascades to the Sites referencing
this Source. -/
def delete_source_db (db : Database) (sid : Nat) : Database :=
  let deletedSources := db.sources.filter (fun s => s.id == sid)
  { db with
    sources := db.sources.filter (fun s => s.id != sid),
    sites := db.sites.filter (fun t => !(deletedSources.any (fun s => s.id == t.channel_id))) }

def delete_source (db : Database) (sid : Nat) : Except SqlError Database :=
  .ok (delete_source_db db sid)

def list_sites (db : Database) : List SiteRow := db.sites

/-- The fixed enumeration of the `CHECK(site_type IN (...))` constraint. -/
def validSiteType (s : String) : Bool := ["AUTO", "RENT", "BUY", "FREE"].contains s

def create_site (db : Database) (source_id : Nat) (site_url site_type : String) :
    Except SqlError (Database × Option Nat) :=
  if !(validSiteType site_type) then .error .checkConstraintFailed
  else if db.sources.any (fun s => s.id == source_id) then
    let row : SiteRow :=
      { id := db.siteSeq + 1, channel_id := source_id,
        site_url := site_url, site_type := site_type }
    .ok ({ db with sites := db.sites ++ [row], siteSeq := db.siteSeq + 1 }, none)
  else .error .foreignKeyConstraintFailed

def update_site (db : Database) (tid : Nat) (source_id : Nat)
    (site_url site_type : String) : Except SqlError Database :=
  if db.sites.any (fun t => t.id == tid) then
    if !(validSiteType site_type) then .error .checkConstraintFailed
    else if db.sources.any (fun s => s.id == source_id) then
      let upd : SiteRow → SiteRow := fun t =>
        if t.id == tid then
          { t with channel_id := source_id, site_url := site_url, site_type := site_type }
        else t
      .ok { db with sites := db.sites.map upd }
    else .error .foreignKeyConstraintFailed
  else .ok db

def delete_site (db : Database) (tid : Nat) : Except SqlError Database :=
  .ok { db with sites := db.sites.filter (fun t => t.id != tid) }

/-! ## UI-side decoding (`TableFrame.refresh`)

`refresh` — not the store — converts the raw rows for display:
`vals[3] = ','.join(json.loads(vals[3] or '[]'))` etc. for channels,
`'Yes' if vals[3] else 'No'` for a Source's `parse_media`. -/

def refresh_channel_row (row : ChannelRow) : Option (List String) :=
  match json_loads_strlist (if row.post_times = "" then "[]" else row.post_times),
        json_loads_strlist (if row.forbidden_words = "" then "[]" else row.forbidden_words) with
  | some pts, some fw =>
    some [toString row.id, row.name, row.url,
      String.intercalate "," pts, String.intercalate "," fw]
  | _, _ => none

def refresh_source_row (row : SourceRow) : Option (List String) :=
  match json_loads_strlist (if row.forbidden_words = "" then "[]" else row.forbidden_words) with
  | some fw =>
    some [toString row.id, toString row.channel_id, row.source_url,
      if row.parse_media ≠ 0 then "Yes" else "No", String.intercalate "," fw]
  | none => none

/-! ## Operation sequences

For the identity-reuse question: any interleaving of the nine CRUD
methods, starting from a fresh store, with the identity assigned by each
successful insert recorded per table (an exception leaves the store
unchanged, as the statement fails before `commit`). -/

inductive Op
  | cChan (name url : String) (post_times forbidden_words : List String)
  | uChan (cid : Nat) (name url : String) (post_times forbidden_words : List String)
  | dChan (cid : Nat)
  | cSrc (channel_id : Nat) (url : String) (parse_media : Bool)
      (forbidden_words : List String)
  | uSrc (sid channel_id : Nat) (url : String) (parse_media : Bool)
      (forbidden_words : List String)
  | dSrc (sid : Nat)
  | cSite (source_id : Nat) (site_url site_type : String)
  | uSite (tid source_id : Nat) (site_url site_type : String)
  | dSite (tid : Nat)

/-- The store together with the history of identities each table's
`AUTOINCREMENT` has handed out, in order of assignment. -/
structure Trace where
  db : Database
  chanIds : List Nat
  srcIds : List Nat
  siteIds : List Nat

def stepOp (t : Trace) (op : Op) : Trace :=
  match op with
  | .cChan n u p f =>
    match create_channel t.db n u p f with
    | .ok (db2, _) => { t with db := db2, chanIds := t.chanIds ++ [t.db.channelSeq + 1] }
    | .error _ => t
  | .uChan cid n u p f =>
    match update_channel t.db cid n u p f with
    | .ok db2 => { t with db := db2 }
    | .error _ => t
  | .dChan cid =>
    match delete_channel t.db cid with
    | .ok db2 => { t with db := db2 }
    | .error _ => t
  | .cSrc c u pm f =>
    match create_source t.db c u pm f with
    | .ok (db2, _) => { t with db := db2, srcIds := t.srcIds ++ [t.db.sourceSeq + 1] }
    | .error _ => t
  | .uSrc sid c u pm f =>
    match update_source t.db sid c u pm f with
    | .ok db2 => { t with db := db2 }
    | .error _ => t
  | .dSrc sid =>
    match delete_source t.db sid with
    | .ok db2 => { t with db := db2 }
    | .error _ => t
  | .cSite sid su st =>
    match create_site t.db sid su st with
    | .ok (db2, _) => { t with db := db2, siteIds := t.siteIds ++ [t.db.siteSeq + 1] }
    | .error _ => t
  | .uSite tid sid su st =>
    match update_site t.db tid sid su st with
    | .ok db2 => { t with db := db2 }
    | .error _ => t
  | .dSite tid =>
    match delete_site t.db tid with
    | .ok db2 => { t with db := db2 }
    | .error _ => t

def runOps (ops : List Op) : Trace := ops.foldl stepOp ⟨emptyDatabase, [], [], []⟩

/-- Each table's assigned-identity history is strictly increasing and
bounded by the table's `AUTOINCREMENT` sequence. -/
abbrev TraceInv (t : Trace) : Prop :=
  t.chanIds.Pairwise (· < ·) ∧ (∀ i ∈ t.chanIds, i ≤ t.db.channelSeq) ∧
  t.srcIds.Pairwise (· < ·) ∧ (∀ i ∈ t.srcIds, i ≤ t.db.sourceSeq) ∧
  t.siteIds.Pairwise (· < ·) ∧ (∀ i ∈ t.siteIds, i ≤ t.db.siteSeq)

theorem create_channel_ok_seq (db : Database) (n u : String) (p f : List String)
    (db2 : Database) (r : Option Nat) (h : create_channel db n u p f = .ok (db2, r)) :
    db2.channelSeq = db.channelSeq + 1 ∧ db2.sourceSeq = db.sourceSeq ∧
      db2.siteSeq = db.siteSeq := by
  unfold create_channel at h
  split at h
  · exact absurd h (by simp)
  · split at h
    · exact absurd h (by simp)
    · simp only [Except.ok.injEq, Prod.mk.injEq] at h
      obtain ⟨h1, -⟩ := h
      subst h1
      exact ⟨rfl, rfl, rfl⟩

theorem update_channel_seq (db : Database) (cid : Nat) (n u : String) (p f : List String)
    (db2 : Database) (h : update_channel db cid n u p f = .ok db2) :
    db2.channelSeq = db.channelSeq ∧ db2.sourceSeq = db.sourceSeq ∧
      db2.siteSeq = db.siteSeq := by
  unfold update_channel at h
  split at h
  · split at h
    · exact absurd h (by simp)
    · split at h
      · exact absurd h (by simp)
      · simp only [Except.ok.injEq] at h
        subst h
        exact ⟨rfl, rfl, rfl⟩
  · simp only [Except.ok.injEq] at h
    subst h
    exact ⟨rfl, rfl, rfl⟩

theorem create_source_ok_seq (db : Database) (c : Nat) (u : String) (pm : Bool)
    (f : List String) (db2 : Database) (r : Option Nat)
    (h : create_source db c u pm f = .ok (db2, r)) :
    db2.channelSeq = db.channelSeq ∧ db2.sourceSeq = db.sourceSeq + 1 ∧
      db2.siteSeq = db.siteSeq := by
  unfold create_source at h
  split at h
  · simp only [Except.ok.injEq, Prod.mk.injEq] at h
    obtain ⟨h1, -⟩ := h
    subst h1
    exact ⟨rfl, rfl, rfl⟩
  · exact absurd h (by simp)

theorem update_source_seq (db : Database) (sid c : Nat) (u : String) (pm : Bool)
    (f : List String) (db2 : Database) (h : update_source db sid c u pm f = .ok db2) :
    db2.channelSeq = db.channelSeq ∧ db2.sourceSeq = db.sourceSeq ∧
      db2.siteSeq = db.siteSeq := by
  unfold update_source at h
  split at h
  · split at h
    · simp only [Except.ok.injEq] at h
      subst h
      exact ⟨rfl, rfl, rfl⟩
    · exact absurd h (by simp)
  · simp only [Except.ok.injEq] at h
    subst h
    exact ⟨rfl, rfl, rfl⟩

theorem create_site_ok_seq (db : Database) (sid : Nat) (su st : String)
    (db2 : Database) (r : Option Nat) (h : create_site db sid su st = .ok (db2, r)) :
    db2.channelSeq = db.channelSeq ∧ db2.sourceSeq = db.sourceSeq ∧
      db2.siteSeq = db.siteSeq + 1 := by
  unfold create_site at h
  split at h
  · exact absurd h (by simp)
  · split at h
    · simp only [Except.ok.injEq, Prod.mk.injEq] at h
      obtain ⟨h1, -⟩ := h
      subst h1
      exact ⟨rfl, rfl, rfl⟩
    · exact absurd h (by simp)

theorem update_site_seq (db : Database) (tid sid : Nat) (su st : String)
    (db2 : Database) (h : update_site db tid sid su st = .ok db2) :
    db2.channelSeq = db.channelSeq ∧ db2.sourceSeq = db.sourceSeq ∧
      db2.siteSeq = db.siteSeq := by
  unfold update_site at h
  split at h
  · split at h
    · exact absurd h (by simp)
    · split at h
      · simp only [Except.ok.injEq] at h
        subst h
        exact ⟨rfl, rfl, rfl⟩
      · exact absurd h (by simp)
  · simp only [Except.ok.injEq] at h
    subst h
    exact ⟨rfl, rfl, rfl⟩

theorem pairwise_snoc_of_bounded (l : List Nat) (seq new : Nat)
    (hp : l.Pairwise (· < ·)) (hb : ∀ i ∈ l, i ≤ seq) (hnew : seq < new) :
    (l ++ [new]).Pairwise (· < ·) ∧ ∀ i ∈ l ++ [new], i ≤ new := by
  constructor
  · rw [List.pairwise_append]
    refine ⟨hp, by simp, ?_⟩
    intro a ha b hb2
    simp only [List.mem_singleton] at hb2
    subst hb2
    have := hb a ha
    omega
  · intro i hi
    rcases List.mem_append.mp hi with h | h
    · have := hb i h
      omega
    · simp only [List.mem_singleton] at h
      omega

/-- Every operation preserves the identity-history invariant. -/
theorem stepOp_inv (t : Trace) (op : Op) (h : TraceInv t) : TraceInv (stepOp t op) := by
  obtain ⟨a1, a2, a3, a4, a5, a6⟩ := h
  cases op with
  | cChan n u p f =>
    simp only [stepOp]
    split
    · rename_i db2 snd heq
      obtain ⟨e1, e2, e3⟩ := create_channel_ok_seq t.db n u p f db2 snd heq
      obtain ⟨p1, p2⟩ := pairwise_snoc_of_bounded t.chanIds t.db.channelSeq
        (t.db.channelSeq + 1) a1 a2 (by omega)
      exact ⟨p1, fun i hi => by rw [e1]; exact p2 i hi,
        a3, fun i hi => by rw [e2]; exact a4 i hi,
        a5, fun i hi => by rw [e3]; exact a6 i hi⟩
    · exact ⟨a1, a2, a3, a4, a5, a6⟩
  | uChan cid n u p f =>
    simp only [stepOp]
    split
    · rename_i db2 heq
      obtain ⟨e1, e2, e3⟩ := update_channel_seq t.db cid n u p f db2 heq
      exact ⟨a1, fun i hi => by rw [e1]; exact a2 i hi,
        a3, fun i hi => by rw [e2]; exact a4 i hi,
        a5, fun i hi => by rw [e3]; exact a6 i hi⟩
    · exact ⟨a1, a2, a3, a4, a5, a6⟩
  | dChan cid =>
    simp only [stepOp, delete_channel]
    exact ⟨a1, a2, a3, a4, a5, a6⟩
  | cSrc c u pm f =>
    simp only [stepOp]
    split
    · rename_i db2 snd heq
      obtain ⟨e1, e2, e3⟩ := create_source_ok_seq t.db c u pm f db2 snd heq
      obtain ⟨p1, p2⟩ := pairwise_snoc_of_bounded t.srcIds t.db.sourceSeq
        (t.db.sourceSeq + 1) a3 a4 (by omega)
      exact ⟨a1, fun i hi => by rw [e1]; exact a2 i hi,
        p1, fun i hi => by rw [e2]; exact p2 i hi,
        a5, fun i hi => by rw [e3]; exact a6 i hi⟩
    · exact ⟨a1, a2, a3, a4, a5, a6⟩
  | uSrc sid c u pm f =>
    simp only [stepOp]
    split
    · rename_i db2 heq
      obtain ⟨e1, e2, e3⟩ := update_source_seq t.db sid c u pm f db2 heq
      exact ⟨a1, fun i hi => by rw [e1]; exact a2 i hi,
        a3, fun i hi => by rw [e2]; exact a4 i hi,
        a5, fun i hi => by rw [e3]; exact a6 i hi⟩
    · exact ⟨a1, a2, a3, a4, a5, a6⟩
  | dSrc sid =>
    simp only [stepOp, delete_source]
    exact ⟨a1, a2, a3, a4, a5, a6⟩
  | cSite sid su st =>
    simp only [stepOp]
    split
    · rename_i db2 snd heq
      obtain ⟨e1, e2, e3⟩ := create_site_ok_seq t.db sid su st db2 snd heq
      obtain ⟨p1, p2⟩ := pairwise_snoc_of_bounded t.siteIds t.db.siteSeq
        (t.db.siteSeq + 1) a5 a6 (by omega)
      exact ⟨a1, fun i hi => by rw [e1]; exact a2 i hi,
        a3, fun i hi => by rw [e2]; exact a4 i hi,
        p1, fun i hi => by rw [e3]; exact p2 i hi⟩
    · exact ⟨a1, a2, a3, a4, a5, a6⟩
  | uSite tid sid su st =>
    simp only [stepOp]
    split
    · rename_i db2 heq
      obtain ⟨e1, e2, e3⟩ := update_site_seq t.db tid sid su st db2 heq
      exact ⟨a1, fun i hi => by rw [e1]; exact a2 i hi,
        a3, fun i hi => by rw [e2]; exact a4 i hi,
        a5, fun i hi => by rw [e3]; exact a6 i hi⟩
    · exact ⟨a1, a2, a3, a4, a5, a6⟩
  | dSite tid =>
    simp only [stepOp, delete_site]
    exact ⟨a1, a2, a3, a4, a5, a6⟩

theorem runOps_inv (ops : List Op) : TraceInv (runOps ops) := by
  have H : ∀ t, TraceInv t → TraceInv (ops.foldl stepOp t) := by
    induction ops with
    | nil => intro t h; exact h
    | cons op ops ih => intro t h; exact ih _ (stepOp_inv t op h)
  exact H _ ⟨List.Pairwise.nil, by simp, List.Pairwise.nil, by simp,
    List.Pairwise.nil, by simp⟩

/-- A store holding one Channel (id 1), one Source (id 1) under it, and
one Site (id 1) under that Source, with all sequences at 1. -/
def sampleDb : Database :=
  ⟨[⟨1, "n", "u", "[]", "[]"⟩], [⟨1, 1, "su", 1, "[]"⟩], [⟨1, 1, "tu", "AUTO"⟩], 1, 1, 1⟩

theorem json_dumps_ne_empty (L : List String) : json_dumps_strlist L ≠ "" := by
  unfold json_dumps_strlist
  intro h
  have h2 := congrArg String.data h
  simp at h2

/-! ## The claims -/

/-- C1: cascading delete is transitive through the chain: in any store
containing a Channel with id `cid`, `delete_channel cid` succeeds and
afterwards `list_channels` has no row with that id, `list_sources` has no
Source whose `channel_id` is that id, and `list_sites` has no Site whose
parent column references one of the deleted Sources — all in one call. -/
theorem C1_cascade_delete_transitive (db : Database) (cid : Nat)
    (h : ∃ ch ∈ db.channels, ch.id = cid) :
    delete_channel db cid = .ok (delete_channel_db db cid) ∧
    (∀ ch ∈ list_channels (delete_channel_db db cid), ch.id ≠ cid) ∧
    (∀ s ∈ list_sources (delete_channel_db db cid), s.channel_id ≠ cid) ∧
    (∀ t ∈ list_sites (delete_channel_db db cid), ∀ s ∈ db.sources,
        s.channel_id = cid → t.channel_id ≠ s.id) := by
  obtain ⟨ch0, hch0, hid0⟩ := h
  refine ⟨rfl, ?_, ?_, ?_⟩
  · intro ch hch
    simp only [list_channels, delete_channel_db, List.mem_filter] at hch
    simpa using hch.2
  · intro s hs hcontra
    simp only [list_sources, delete_channel_db, List.mem_filter] at hs
    have hany : (db.channels.filter (fun c => c.id == cid)).any
        (fun c => c.id == s.channel_id) = true := by
      refine List.any_eq_true.mpr ⟨ch0, ?_, ?_⟩
      · exact List.mem_filter.mpr ⟨hch0, by simp [hid0]⟩
      · simp [hid0, hcontra]
    rw [hany] at hs
    simp at hs
  · intro t ht s hs hcid hcontra
    simp only [list_sites, delete_channel_db, List.mem_filter] at ht
    have hsdel : s ∈ db.sources.filter
        (fun s => (db.channels.filter (fun c => c.id == cid)).any
          (fun c => c.id == s.channel_id)) := by
      refine List.mem_filter.mpr ⟨hs, ?_⟩
      refine List.any_eq_true.mpr ⟨ch0, List.mem_filter.mpr ⟨hch0, by simp [hid0]⟩, ?_⟩
      simp [hid0, hcid]
    have hany : (db.sources.filter
        (fun s => (db.channels.filter (fun c => c.id == cid)).any
          (fun c => c.id == s.channel_id))).any (fun s => s.id == t.channel_id) = true :=
      List.any_eq_true.mpr ⟨s, hsdel, by simp [hcontra]⟩
    rw [hany] at ht
    simp at ht

/-- Witness for C1 on a concrete Channel→Source→Site chain. -/
theorem C1_witness :
    (∃ ch ∈ sampleDb.channels, ch.id = 1) ∧
    (delete_channel sampleDb 1 = .ok (delete_channel_db sampleDb 1) ∧
    (∀ ch ∈ list_channels (delete_channel_db sampleDb 1), ch.id ≠ 1) ∧
    (∀ s ∈ list_sources (delete_channel_db sampleDb 1), s.channel_id ≠ 1) ∧
    (∀ t ∈ list_sites (delete_channel_db sampleDb 1), ∀ s ∈ sampleDb.sources,
        s.channel_id = 1 → t.channel_id ≠ s.id)) :=
  ⟨by decide, C1_cascade_delete_transitive sampleDb 1 (by decide)⟩

/-- C2 counterexample: `update_*` / `delete_*` on an id that does not
exist succeed silently (an UPDATE/DELETE matching zero rows is not an
error in SQLite and the code checks `cur.rowcount` nowhere), leaving the
store unchanged — they do not fail with `NotFound` as the claim states,
and a second delete of the same id also succeeds. -/
theorem C2_counterexample :
    delete_channel emptyDatabase 999 = .ok emptyDatabase ∧
    update_channel emptyDatabase 999 "n" "u" [] [] = .ok emptyDatabase ∧
    delete_source emptyDatabase 999 = .ok emptyDatabase ∧
    delete_site emptyDatabase 999 = .ok emptyDatabase :=
  ⟨rfl, rfl, rfl, rfl⟩

/-- C2 amended: for every entity kind, `update` and `delete` on an id
with no matching row succeed as silent no-ops — no error of any kind is
signalled and the store state is completely unchanged (hence deleting the
same id twice succeeds both times). -/
theorem C2_missing_id_silent_noop (db : Database) (cid sid tid src : Nat)
    (name url surl stype : String) (pts fw : List String) (pm : Bool)
    (hc : ∀ ch ∈ db.channels, ch.id ≠ cid)
    (hs : ∀ s ∈ db.sources, s.id ≠ sid)
    (ht : ∀ t ∈ db.sites, t.id ≠ tid) :
    update_channel db cid name url pts fw = .ok db ∧
    delete_channel db cid = .ok db ∧
    update_source db sid src url pm fw = .ok db ∧
    delete_source db sid = .ok db ∧
    update_site db tid src surl stype = .ok db ∧
    delete_site db tid = .ok db := by
  have hcb : db.channels.any (fun ch => ch.id == cid) = false := by
    rw [List.any_eq_false]
    intro ch hch
    simpa using hc ch hch
  have hsb : db.sources.any (fun s => s.id == sid) = false := by
    rw [List.any_eq_false]
    intro s hsm
    simpa using hs s hsm
  have htb : db.sites.any (fun t => t.id == tid) = false := by
    rw [List.any_eq_false]
    intro t htm
    simpa using ht t htm
  refine ⟨?_, ?_, ?_, ?_, ?_, ?_⟩
  · unfold update_channel
    rw [if_neg (by simp [hcb])]
  · unfold delete_channel delete_channel_db
    have h1 : db.channels.filter (fun ch => ch.id != cid) = db.channels :=
      List.filter_eq_self.mpr (fun ch hch => by simpa using hc ch hch)
    have h2 : db.channels.filter (fun ch => ch.id == cid) = [] := by
      rw [List.filter_eq_nil_iff]
      intro ch hch
      simpa using hc ch hch
    simp only [h1, h2, List.any_nil, Bool.not_false, List.filter_true, List.filter_false]
  · unfold update_source
    rw [if_neg (by simp [hsb])]
  · unfold delete_source delete_source_db
    have h1 : db.sources.filter (fun s => s.id != sid) = db.sources :=
      List.filter_eq_self.mpr (fun s hsm => by simpa using hs s hsm)
    have h2 : db.sources.filter (fun s => s.id == sid) = [] := by
      rw [List.filter_eq_nil_iff]
      intro s hsm
      simpa using hs s hsm
    simp only [h1, h2, List.any_nil, Bool.not_false, List.filter_true, List.filter_false]
  · unfold update_site
    rw [if_neg (by simp [htb])]
  · unfold delete_site
    have h1 : db.sites.filter (fun t => t.id != tid) = db.sites :=
      List.filter_eq_self.mpr (fun t htm => by simpa using ht t htm)
    simp only [h1]

/-- Witness for the amended C2 at a fresh store and id 999. -/
theorem C2_witness :
    update_channel emptyDatabase 999 "n" "u" [] [] = .ok emptyDatabase ∧
    delete_channel emptyDatabase 999 = .ok emptyDatabase ∧
    update_source emptyDatabase 999 1 "u" true [] = .ok emptyDatabase ∧
    delete_source emptyDatabase 999 = .ok emptyDatabase ∧
    update_site emptyDatabase 999 1 "su" "AUTO" = .ok emptyDatabase ∧
    delete_site emptyDatabase 999 = .ok emptyDatabase :=
  C2_missing_id_silent_noop emptyDatabase 999 999 999 1 "n" "u" "su" "AUTO" [] [] true
    (by decide) (by decide) (by decide)

/-- C3 counterexample: a successful `create_channel` inserts the row
with the newly assigned auto-increment identity 1, but the method's
return value is `None` — it never returns `cur.lastrowid`, so the caller
does not receive the identity. -/
theorem C3_counterexample :
    create_channel emptyDatabase "news" "https://x" [] [] =
      .ok (⟨[⟨1, "news", "https://x", "[]", "[]"⟩], [], [], 1, 0, 0⟩, none) ∧
    (none : Option Nat) ≠ some 1 :=
  ⟨rfl, by decide⟩

/-- C3 amended: for every entity kind, a successful `create` inserts a
row carrying the newly assigned auto-increment identity (one more than
the table's sequence), but returns `None` rather than that identity. -/
theorem C3_create_returns_none_id_assigned (db : Database) (n u : String)
    (p f : List String) (c sid : Nat) (su st : String) (pm : Bool) :
    (∀ db2 r, create_channel db n u p f = .ok (db2, r) → r = none ∧
      db2.channels.map (fun ch => ch.id) = db.channels.map (fun ch => ch.id)
        ++ [db.channelSeq + 1]) ∧
    (∀ db2 r, create_source db c u pm f = .ok (db2, r) → r = none ∧
      db2.sources.map (fun s => s.id) = db.sources.map (fun s => s.id)
        ++ [db.sourceSeq + 1]) ∧
    (∀ db2 r, create_site db sid su st = .ok (db2, r) → r = none ∧
      db2.sites.map (fun t => t.id) = db.sites.map (fun t => t.id)
        ++ [db.siteSeq + 1]) := by
  refine ⟨?_, ?_, ?_⟩
  · intro db2 r h
    unfold create_channel at h
    split at h
    · exact absurd h (by simp)
    · split at h
      · exact absurd h (by simp)
      · simp only [Except.ok.injEq, Prod.mk.injEq] at h
        obtain ⟨h1, h2⟩ := h
        subst h1
        subst h2
        simp
  · intro db2 r h
    unfold create_source at h
    split at h
    · simp only [Except.ok.injEq, Prod.mk.injEq] at h
      obtain ⟨h1, h2⟩ := h
      subst h1
      subst h2
      simp
    · exact absurd h (by simp)
  · intro db2 r h
    unfold create_site at h
    split at h
    · exact absurd h (by simp)
    · split at h
      · simp only [Except.ok.injEq, Prod.mk.injEq] at h
        obtain ⟨h1, h2⟩ := h
        subst h1
        subst h2
        simp
      · exact absurd h (by simp)

/-- Witness for the amended C3 on a fresh store. -/
theorem C3_witness :
    (none : Option Nat) = none ∧
      ((⟨[⟨1, "n", "u", "[]", "[]"⟩], [], [], 1, 0, 0⟩ : Database).channels.map
          (fun ch => ch.id))
        = (emptyDatabase.channels.map (fun ch => ch.id)) ++ [emptyDatabase.channelSeq + 1] :=
  (C3_create_returns_none_id_assigned emptyDatabase "n" "u" [] [] 1 1 "su" "AUTO" true).1
    ⟨[⟨1, "n", "u", "[]", "[]"⟩], [], [], 1, 0, 0⟩ none rfl

/-- C4 counterexample: after storing `post_times = ["09:00", "18:00"]`,
`list_channels` returns the row with the field still equal to the
serialized JSON text produced by `json.dumps` — not decoded to the
structured list; decoding happens only in the UI's `TableFrame.refresh`. -/
theorem C4_counterexample :
    (match create_channel emptyDatabase "news" "https://x" ["09:00", "18:00"] ["spam"] with
     | .ok (db2, _) => (list_channels db2).map (fun ch => ch.post_times)
     | .error _ => []) = [json_dumps_strlist ["09:00", "18:00"]] ∧
    json_dumps_strlist ["09:00", "18:00"] = "[\"09:00\", \"18:00\"]" :=
  ⟨rfl, rfl⟩

/-- C4 amended: `list_*` return the stored rows verbatim, with
structured fields still in their encoded storage form — JSON text for a
Channel's `post_times`/`forbidden_words` and a Source's
`forbidden_words`, the 0/1 integer for a Source's `parse_media`; the
decoding (json.loads plus comma-joining, Yes/No for the boolean) is
performed by the caller — the UI's `TableFrame.refresh` — not by the
store. -/
theorem C4_list_returns_encoded_ui_decodes (db : Database) (name url : String)
    (pts fw : List String) :
    list_channels db = db.channels ∧ list_sources db = db.sources ∧
    list_sites db = db.sites ∧
    (∀ db2 r, create_channel db name url pts fw = .ok (db2, r) →
      ∃ row ∈ list_channels db2,
        row.post_times = json_dumps_strlist pts ∧
        row.forbidden_words = json_dumps_strlist fw ∧
        refresh_channel_row row = some [toString row.id, name, url,
          String.intercalate "," pts, String.intercalate "," fw]) ∧
    (∀ channel_id pm db2 r, create_source db channel_id url pm fw = .ok (db2, r) →
      ∃ row ∈ list_sources db2,
        row.parse_media = (if pm then 1 else 0) ∧
        row.forbidden_words = json_dumps_strlist fw ∧
        refresh_source_row row = some [toString row.id, toString channel_id, url,
          (if pm then "Yes" else "No"), String.intercalate "," fw]) := by
  refine ⟨rfl, rfl, rfl, ?_, ?_⟩
  · intro db2 r h
    unfold create_channel at h
    split at h
    · exact absurd h (by simp)
    · split at h
      · exact absurd h (by simp)
      · simp only [Except.ok.injEq, Prod.mk.injEq] at h
        obtain ⟨h1, -⟩ := h
        subst h1
        refine ⟨⟨db.channelSeq + 1, name, url, json_dumps_strlist pts, json_dumps_strlist fw⟩,
          by simp [list_channels], rfl, rfl, ?_⟩
        unfold refresh_channel_row
        rw [if_neg (json_dumps_ne_empty pts), if_neg (json_dumps_ne_empty fw)]
        rw [json_roundtrip pts, json_roundtrip fw]
  · intro channel_id pm db2 r h
    unfold create_source at h
    split at h
    · simp only [Except.ok.injEq, Prod.mk.injEq] at h
      obtain ⟨h1, -⟩ := h
      subst h1
      refine ⟨⟨db.sourceSeq + 1, channel_id, url, if pm then 1 else 0,
          json_dumps_strlist fw⟩,
        by simp [list_sources], rfl, rfl, ?_⟩
      unfold refresh_source_row
      rw [if_neg (json_dumps_ne_empty fw)]
      rw [json_roundtrip fw]
      cases pm <;> simp
    · exact absurd h (by simp)

/-- Witness for the amended C4: a concrete Channel creation (list fields
come back as JSON text, refresh comma-joins them) and a concrete Source
creation (`parse_media` comes back as the integer 1, refresh renders
Yes). -/
theorem C4_witness :
    (∃ row ∈ list_channels (⟨[⟨1, "news", "https://x",
        json_dumps_strlist ["09:00", "18:00"], json_dumps_strlist ["spam"]⟩],
        [], [], 1, 0, 0⟩ : Database),
      row.post_times = json_dumps_strlist ["09:00", "18:00"] ∧
      row.forbidden_words = json_dumps_strlist ["spam"] ∧
      refresh_channel_row row = some [toString row.id, "news", "https://x",
        String.intercalate "," ["09:00", "18:00"], String.intercalate "," ["spam"]]) ∧
    (∃ row ∈ list_sources (⟨[⟨1, "news", "https://x", "[]", "[]"⟩],
        [⟨1, 1, "srcu", 1, json_dumps_strlist ["w"]⟩], [], 1, 1, 0⟩ : Database),
      row.parse_media = 1 ∧
      row.forbidden_words = json_dumps_strlist ["w"] ∧
      refresh_source_row row = some [toString row.id, toString 1, "srcu",
        "Yes", String.intercalate "," ["w"]]) :=
  ⟨(C4_list_returns_encoded_ui_decodes emptyDatabase "news" "https://x"
      ["09:00", "18:00"] ["spam"]).2.2.2.1 _ none rfl,
   (C4_list_returns_encoded_ui_decodes
      ⟨[⟨1, "news", "https://x", "[]", "[]"⟩], [], [], 1, 0, 0⟩ "news" "srcu"
      [] ["w"]).2.2.2.2 1 true _ none rfl⟩

/-- C5: `name` and `url` are unique across Channels: with a Channel
already present whose name or url collides, a second `create_channel`
fails with a UNIQUE-constraint error (the statement raises before
`commit`, so the existing row is untouched and no row is inserted). -/
theorem C5_unique_name_url (db : Database) (name url : String) (pts fw : List String)
    (h : ∃ ch ∈ db.channels, ch.name = name ∨ ch.url = url) :
    ∃ col, create_channel db name url pts fw = .error (.uniqueConstraintFailed col) := by
  unfold create_channel
  obtain ⟨ch, hmem, hcase⟩ := h
  by_cases hn : db.channels.any (fun c => c.name == name) = true
  · rw [if_pos hn]
    exact ⟨"channels.name", rfl⟩
  · rw [if_neg hn]
    have hu : db.channels.any (fun c => c.url == url) = true := by
      rcases hcase with h1 | h2
      · exact absurd (List.any_eq_true.mpr ⟨ch, hmem, by simp [h1]⟩) hn
      · exact List.any_eq_true.mpr ⟨ch, hmem, by simp [h2]⟩
    rw [if_pos hu]
    exact ⟨"channels.url", rfl⟩

/-- Witness for C5: duplicate url on a store with one Channel. -/
theorem C5_witness :
    (∃ ch ∈ (⟨[⟨1, "news", "https://x", "[]", "[]"⟩], [], [], 1, 0, 0⟩ : Database).channels,
        ch.name = "other" ∨ ch.url = "https://x") ∧
    ∃ col, create_channel ⟨[⟨1, "news", "https://x", "[]", "[]"⟩], [], [], 1, 0, 0⟩
        "other" "https://x" [] [] = .error (.uniqueConstraintFailed col) :=
  ⟨by decide, C5_unique_name_url _ "other" "https://x" [] [] (by decide)⟩

/-- C6: with `PRAGMA foreign_keys = ON`, creating a Source whose
`channel_id` matches no Channel, or a Site whose parent id matches no
Source, fails with a FOREIGN-KEY-constraint error and no row is inserted,
so orphaned children never come into existence. -/
theorem C6_foreign_key_rejects_orphans (db : Database) (cid sid : Nat)
    (url surl stype : String) (pm : Bool) (fw : List String)
    (hst : validSiteType stype = true)
    (hc : ∀ ch ∈ db.channels, ch.id ≠ cid)
    (hs : ∀ s ∈ db.sources, s.id ≠ sid) :
    create_source db cid url pm fw = .error .foreignKeyConstraintFailed ∧
    create_site db sid surl stype = .error .foreignKeyConstraintFailed := by
  have hcb : ¬ db.channels.any (fun ch => ch.id == cid) = true := by
    intro hany
    obtain ⟨ch, hmem, hch⟩ := List.any_eq_true.mp hany
    exact hc ch hmem (by simpa using hch)
  have hsb : ¬ db.sources.any (fun s => s.id == sid) = true := by
    intro hany
    obtain ⟨s, hmem, hsm⟩ := List.any_eq_true.mp hany
    exact hs s hmem (by simpa using hsm)
  constructor
  · unfold create_source
    rw [if_neg hcb]
  · unfold create_site
    rw [if_neg (by simp [hst]), if_neg hsb]

/-- Witness for C6 on a fresh store. -/
theorem C6_witness :
    create_source emptyDatabase 5 "u" true [] = .error .foreignKeyConstraintFailed ∧
    create_site emptyDatabase 7 "su" "AUTO" = .error .foreignKeyConstraintFailed :=
  C6_foreign_key_rejects_orphans emptyDatabase 5 7 "u" "su" "AUTO" true []
    (by decide) (by decide) (by decide)

/-- C7: `site_type` outside {AUTO, RENT, BUY, FREE} is rejected by the
CHECK constraint: `create_site` always fails with a CHECK-constraint
error, and `update_site` of an existing Site fails likewise; the failed
statement inserts/modifies nothing. -/
theorem C7_site_type_enum_enforced (db : Database) (sid tid src : Nat)
    (surl stype : String)
    (hbad : validSiteType stype = false)
    (hrow : ∃ t ∈ db.sites, t.id = tid) :
    create_site db sid surl stype = .error .checkConstraintFailed ∧
    update_site db tid src surl stype = .error .checkConstraintFailed := by
  obtain ⟨t0, ht0, hid0⟩ := hrow
  constructor
  · unfold create_site
    rw [if_pos (by simp [hbad])]
  · unfold update_site
    rw [if_pos (List.any_eq_true.mpr ⟨t0, ht0, by simp [hid0]⟩)]
    rw [if_pos (by simp [hbad])]

/-- Witness for C7 with `site_type = "LEASE"`. -/
theorem C7_witness :
    create_site sampleDb 1 "su" "LEASE" = .error .checkConstraintFailed ∧
    update_site sampleDb 1 1 "su" "LEASE" = .error .checkConstraintFailed :=
  C7_site_type_enum_enforced sampleDb 1 1 1 "su" "LEASE" (by decide) (by decide)

/-- C8: the string-list encoding is exactly reversible: decoding the
stored `json.dumps` text of any list of strings — the empty list included
— yields the original list, and the empty list is stored as the explicit
empty-array marker `"[]"`, never as null. -/
theorem C8_strlist_roundtrip (L : List String) :
    json_loads_strlist (json_dumps_strlist L) = some L ∧
    json_dumps_strlist [] = "[]" ∧
    json_dumps_strlist [] ≠ "null" :=
  ⟨json_roundtrip L, rfl, by decide⟩

/-- C9 counterexample: the persisted `sites` table's parent foreign-key
column is named `channel_id`, not `parent_id` as the claim states (it is
nevertheless declared against `sources(id)` with ON DELETE CASCADE). -/
theorem C9_counterexample :
    sitesTable.foreignKey = some ("channel_id", "sources", "id", true) ∧
    "channel_id" ≠ "parent_id" :=
  ⟨rfl, by decide⟩

/-- C9 amended: the persisted layout is `sites(id, channel_id NOT NULL
REFERENCES sources(id) ON DELETE CASCADE, site_url NOT NULL, site_type
TEXT CHECK(site_type IN ('AUTO','RENT','BUY','FREE')) NOT NULL)` — the
parent foreign-key column is (misleadingly) named `channel_id` but is
declared against `sources(id)` with cascading delete; the runtime enum
check agrees with the declared CHECK set. -/
theorem C9_sites_layout :
    sitesTable.name = "sites" ∧
    sitesTable.columns = ["id", "channel_id", "site_url", "site_type"] ∧
    sitesTable.foreignKey = some ("channel_id", "sources", "id", true) ∧
    sitesTable.checkEnum = some ("site_type", ["AUTO", "RENT", "BUY", "FREE"]) ∧
    sitesTable.notNullCols = ["channel_id", "site_url", "site_type"] ∧
    (∀ st, validSiteType st = true ↔ st ∈ ["AUTO", "RENT", "BUY", "FREE"]) := by
  refine ⟨rfl, rfl, rfl, rfl, rfl, ?_⟩
  intro st
  simp [validSiteType]

/-- C10: every table's primary key is declared AUTOINCREMENT, and over
any sequence of create/update/delete operations from a fresh store, the
identities each table hands out are strictly increasing in order of
assignment — an id is never reused, even after deletes. -/
theorem C10_autoincrement_monotonic (ops : List Op) :
    (runOps ops).chanIds.Pairwise (· < ·) ∧
    (runOps ops).srcIds.Pairwise (· < ·) ∧
    (runOps ops).siteIds.Pairwise (· < ·) ∧
    channelsTable.pkAutoincrement = true ∧
    sourcesTable.pkAutoincrement = true ∧
    sitesTable.pkAutoincrement = true := by
  obtain ⟨a1, -, a3, -, a5, -⟩ := runOps_inv ops
  exact ⟨a1, a3, a5, rfl, rfl, rfl⟩
